import Mathlib

/-!
Shallow embedding of the SurveyZama contract (src/contracts/Survey_.sol) together
with the client-side decryption flow of src/frontend/web/src/App.tsx, and theorems
checking the specification's claims against them.

Conventions: uint256 quantities are Nat (the contract only copies them and grows
array lengths, so no 2^256 wrap can be observed); the uint32 counter in
updateCategoryStats wraps modulo 2^32 explicitly; reverts are Except.error with
the source's revert string; mappings are functions with the Solidity zero default.
-/

/-- Symbolic FHE ciphertext handles. The contract only builds handles in three
ways: wrapping a constant (euint32.wrap(0)), importing an external ciphertext
with its input proof (FHE.fromExternal), and homomorphic addition (FHE.add). -/
inductive FheVal where
  | wrap (n : Nat)
  | ext (ciphertext inputProof : Nat)
  | add (a b : FheVal)
deriving DecidableEq

/-- Environment provided by the FHEVM library: which (ciphertext, inputProof)
pairs pass FHE.isInitialized(FHE.fromExternal(..)), and which
(handles, decryptionProof) pairs pass FHE.checkSignatures. -/
structure FheEnv where
  validInput : Nat → Nat → Bool
  checkSig : List FheVal → Nat → Bool

/-- struct EncryptedResponse, Survey_.sol lines 7-14. Note: the struct has no
field holding decrypted plaintext values. -/
structure EncryptedResponse where
  encryptedAge : FheVal
  encryptedIncome : FheVal
  encryptedSatisfaction : FheVal
  publicCategory : Nat
  timestamp : Nat
  isVerified : Bool
deriving DecidableEq

/-- struct SurveyStats, lines 16-21; totalResponses is a uint32. -/
structure SurveyStats where
  totalResponses : Nat
  sumAge : FheVal
  sumIncome : FheVal
  sumSatisfaction : FheVal
deriving DecidableEq

/-- The contract's events, lines 28-30; an explicit log lets us reason about
which events a reachable execution can have emitted. -/
inductive ContractEvent where
  | responseSubmitted (responseId category : Nat)
  | responseVerified (responseId : Nat)
  | statsUpdated (categoryId totalResponses : Nat)
deriving DecidableEq

/-- Solidity mapping write: point update of a total function. -/
def mapUpd {α : Type} (m : Nat → α) (k : Nat) (v : α) : Nat → α :=
  fun j => if j = k then v else m j

/-- Solidity zero value of EncryptedResponse (mapping default). -/
def emptyResponse : EncryptedResponse :=
  { encryptedAge := FheVal.wrap 0, encryptedIncome := FheVal.wrap 0,
    encryptedSatisfaction := FheVal.wrap 0, publicCategory := 0, timestamp := 0,
    isVerified := false }

/-- Solidity zero value of SurveyStats (mapping default). -/
def emptyStats : SurveyStats :=
  { totalResponses := 0, sumAge := FheVal.wrap 0, sumIncome := FheVal.wrap 0,
    sumSatisfaction := FheVal.wrap 0 }

/-- Contract storage, lines 23-26, plus the emitted event log. -/
structure ContractState where
  responses : Nat → EncryptedResponse
  categoryStats : Nat → SurveyStats
  responseIds : List Nat
  categoryIds : List Nat
  events : List ContractEvent

/-- Storage right after deployment (the constructor writes nothing). -/
def initialState : ContractState :=
  { responses := fun _ => emptyResponse, categoryStats := fun _ => emptyStats,
    responseIds := [], categoryIds := [], events := [] }

/-- Storage after the write part of submitResponse, lines 51-74: the record is
written at key responseIds.length, that id is pushed onto responseIds, and
publicCategory is pushed onto categoryIds when
categoryStats[publicCategory].totalResponses == 0. The FHE.allowThis and
FHE.makePubliclyDecryptable calls (lines 60-66) are ACL registrations in the
FHEVM coprocessor with no contract storage effect, so they are not modelled. -/
def submittedState (s : ContractState)
    (publicCategory e1 p1 e2 p2 e3 p3 now : Nat) : ContractState :=
  let responseId := s.responseIds.length
  { s with
    responses := mapUpd s.responses responseId
      { encryptedAge := FheVal.ext e1 p1, encryptedIncome := FheVal.ext e2 p2,
        encryptedSatisfaction := FheVal.ext e3 p3, publicCategory := publicCategory,
        timestamp := now, isVerified := false },
    responseIds := s.responseIds ++ [responseId],
    categoryIds :=
      if (s.categoryStats publicCategory).totalResponses = 0 then
        s.categoryIds ++ [publicCategory]
      else s.categoryIds,
    events := s.events ++ [ContractEvent.responseSubmitted responseId publicCategory] }

/-- submitResponse, lines 36-75. The three input-proof checks (lines 47-49) run
before any storage write; block.timestamp is passed in as now. A failing require
reverts the whole call. -/
def submitResponse (env : FheEnv) (s : ContractState)
    (publicCategory e1 p1 e2 p2 e3 p3 now : Nat) : Except String ContractState :=
  if !(env.validInput e1 p1) then Except.error "Invalid age encryption"
  else if !(env.validInput e2 p2) then Except.error "Invalid income encryption"
  else if !(env.validInput e3 p3) then Except.error "Invalid satisfaction encryption"
  else Except.ok (submittedState s publicCategory e1 p1 e2 p2 e3 p3 now)

/-- Storage after the write part of verifyResponse, lines 95-96: only the
isVerified flag of the record is set; every other field is copied unchanged and
no plaintext is stored anywhere (the struct has no plaintext field). -/
def verifiedState (s : ContractState) (responseId : Nat) : ContractState :=
  { s with
    responses := mapUpd s.responses responseId
      { s.responses responseId with isVerified := true },
    events := s.events ++ [ContractEvent.responseVerified responseId] }

/-- verifyResponse, lines 77-97: bounds guard, already-verified guard, then three
FHE.checkSignatures calls over the response's three handles (the library reverts
when a signature check fails), then the flag write. -/
def verifyResponse (env : FheEnv) (s : ContractState)
    (responseId p1 p2 p3 : Nat) : Except String ContractState :=
  if responseId < s.responseIds.length then
    if (s.responses responseId).isVerified then Except.error "Response already verified"
    else
      let cts := [(s.responses responseId).encryptedAge,
        (s.responses responseId).encryptedIncome,
        (s.responses responseId).encryptedSatisfaction]
      if !(env.checkSig cts p1) then Except.error "Invalid decryption signatures"
      else if !(env.checkSig cts p2) then Except.error "Invalid decryption signatures"
      else if !(env.checkSig cts p3) then Except.error "Invalid decryption signatures"
      else Except.ok (verifiedState s responseId)
  else Except.error "Invalid response ID"

/-- The loop condition of updateCategoryStats, line 108:
responses[i].publicCategory == categoryId && responses[i].isVerified. -/
def respMatches (categoryId : Nat) (r : EncryptedResponse) : Bool :=
  (r.publicCategory == categoryId) && r.isVerified

/-- One iteration of the updateCategoryStats loop, lines 107-114; the uint32
counter increments modulo 2^32. -/
def statsAccStep (s : ContractState) (categoryId : Nat)
    (acc : FheVal × FheVal × FheVal × Nat) (i : Nat) : FheVal × FheVal × FheVal × Nat :=
  let r := s.responses i
  if respMatches categoryId r then
    (FheVal.add acc.1 r.encryptedAge, FheVal.add acc.2.1 r.encryptedIncome,
      FheVal.add acc.2.2.1 r.encryptedSatisfaction, (acc.2.2.2 + 1) % 4294967296)
  else acc

/-- The accumulators produced by the loop of updateCategoryStats: i runs over
0 .. responseIds.length - 1 and indexes the responses mapping directly, starting
from euint32.wrap(0) accumulators and a zero counter (lines 102-114). -/
def statsAcc (s : ContractState) (categoryId : Nat) : FheVal × FheVal × FheVal × Nat :=
  (List.range s.responseIds.length).foldl (statsAccStep s categoryId)
    (FheVal.wrap 0, FheVal.wrap 0, FheVal.wrap 0, 0)

/-- Storage after the write part of updateCategoryStats, lines 116-123. -/
def statsState (s : ContractState) (categoryId : Nat) : ContractState :=
  { s with
    categoryStats := mapUpd s.categoryStats categoryId
      { totalResponses := (statsAcc s categoryId).2.2.2,
        sumAge := (statsAcc s categoryId).1,
        sumIncome := (statsAcc s categoryId).2.1,
        sumSatisfaction := (statsAcc s categoryId).2.2.1 },
    events := s.events ++
      [ContractEvent.statsUpdated categoryId (statsAcc s categoryId).2.2.2] }

/-- updateCategoryStats, lines 99-124: guarded by
require(categoryStats[categoryId].totalResponses > 0). -/
def updateCategoryStats (s : ContractState) (categoryId : Nat) :
    Except String ContractState :=
  if (s.categoryStats categoryId).totalResponses = 0 then
    Except.error "Category has no responses"
  else Except.ok (statsState s categoryId)

/-- getAllResponseIds, lines 161-163. -/
def getAllResponseIds (s : ContractState) : List Nat := s.responseIds

/-- getAllCategoryIds, lines 165-167. -/
def getAllCategoryIds (s : ContractState) : List Nat := s.categoryIds

/-- getCategoryStats, lines 146-159: no require at all, so it is total; for a
category never written it returns the mapping's zero default. -/
def getCategoryStats (s : ContractState) (categoryId : Nat) : SurveyStats :=
  s.categoryStats categoryId

/-- getResponse, lines 126-144. -/
def getResponse (s : ContractState) (responseId : Nat) :
    Except String EncryptedResponse :=
  if responseId < s.responseIds.length then Except.ok (s.responses responseId)
  else Except.error "Invalid response ID"

/-- Plaintext values stored in an on-chain response record. The struct at lines
7-14 has no plaintext field, so the stored plaintext list of every record is
empty; this constant makes that observable fact explicit. -/
def storedPlaintexts (_ : EncryptedResponse) : List Nat := []

/-- EVM call semantics of an external submitResponse transaction: a revert
leaves storage exactly as it was. -/
def runSubmit (env : FheEnv) (s : ContractState)
    (publicCategory e1 p1 e2 p2 e3 p3 now : Nat) : ContractState :=
  match submitResponse env s publicCategory e1 p1 e2 p2 e3 p3 now with
  | Except.ok s' => s'
  | Except.error _ => s

/-- One successful externally-callable state mutation of the contract. -/
inductive Step : ContractState → ContractState → Prop where
  | submit {env s s'} (publicCategory e1 p1 e2 p2 e3 p3 now : Nat) :
      submitResponse env s publicCategory e1 p1 e2 p2 e3 p3 now = Except.ok s' →
      Step s s'
  | verify {env s s'} (responseId p1 p2 p3 : Nat) :
      verifyResponse env s responseId p1 p2 p3 = Except.ok s' → Step s s'
  | update {s s'} (categoryId : Nat) :
      updateCategoryStats s categoryId = Except.ok s' → Step s s'

/-- States reachable from deployment by any sequence of successful calls
(reverted calls leave storage unchanged, so they need no transition). -/
inductive Reachable : ContractState → Prop where
  | init : Reachable initialState
  | step {s s'} : Reachable s → Step s s' → Reachable s'

/-- The ledger's records in insertion order. -/
def ledgerRecords (s : ContractState) : List EncryptedResponse :=
  s.responseIds.map s.responses

/-- The responses of a category that are currently verified, in ledger order:
the set updateCategoryStats is specified to aggregate over. -/
def matchingVerified (s : ContractState) (categoryId : Nat) :
    List EncryptedResponse :=
  (ledgerRecords s).filter (respMatches categoryId)

/-- Homomorphic sum of one ciphertext field over a list of records, starting
from the euint32.wrap(0) accumulator, in list order. -/
def homSum (f : EncryptedResponse → FheVal) (rs : List EncryptedResponse) : FheVal :=
  rs.foldl (fun a r => FheVal.add a (f r)) (FheVal.wrap 0)

/-! ### Characterization of successful calls -/

theorem submitResponse_ok {env : FheEnv} {s s' : ContractState}
    {publicCategory e1 p1 e2 p2 e3 p3 now : Nat}
    (h : submitResponse env s publicCategory e1 p1 e2 p2 e3 p3 now = Except.ok s') :
    env.validInput e1 p1 = true ∧ env.validInput e2 p2 = true ∧
      env.validInput e3 p3 = true ∧
      s' = submittedState s publicCategory e1 p1 e2 p2 e3 p3 now := by
  unfold submitResponse at h
  repeat' split at h
  all_goals simp_all

theorem verifyResponse_ok {env : FheEnv} {s s' : ContractState}
    {responseId p1 p2 p3 : Nat}
    (h : verifyResponse env s responseId p1 p2 p3 = Except.ok s') :
    responseId < s.responseIds.length ∧
      (s.responses responseId).isVerified = false ∧
      s' = verifiedState s responseId := by
  simp only [verifyResponse] at h
  repeat' split at h
  all_goals simp_all

theorem updateCategoryStats_ok {s s' : ContractState} {categoryId : Nat}
    (h : updateCategoryStats s categoryId = Except.ok s') :
    (s.categoryStats categoryId).totalResponses ≠ 0 ∧ s' = statsState s categoryId := by
  unfold updateCategoryStats at h
  repeat' split at h
  all_goals simp_all

/-! ### The reachability invariant -/

/-- Invariant of every reachable state: ids are exactly 0,1,...,n-1 in order,
the category-stats cache has never been written (it holds the zero default at
every key), and no StatsUpdated event has ever been emitted. -/
def LedgerInv (s : ContractState) : Prop :=
  s.responseIds = List.range s.responseIds.length ∧
    (∀ c, s.categoryStats c = emptyStats) ∧
    (∀ c n, ContractEvent.statsUpdated c n ∉ s.events)

theorem inv_initial : LedgerInv initialState := by
  refine ⟨rfl, fun c => rfl, ?_⟩
  intro c n h
  simp [initialState] at h

theorem inv_step {s s' : ContractState} (hs : LedgerInv s) (hstep : Step s s') : LedgerInv s' := by
  obtain ⟨hids, hstats, hev⟩ := hs
  cases hstep with
  | submit publicCategory e1 p1 e2 p2 e3 p3 now h =>
      obtain ⟨-, -, -, rfl⟩ := submitResponse_ok h
      refine ⟨?_, ?_, ?_⟩
      · simp only [submittedState, List.length_append, List.length_singleton]
        rw [List.range_succ]
        exact congrArg (fun l => l ++ [s.responseIds.length]) hids
      · intro c
        simpa [submittedState] using hstats c
      · intro c n hmem
        simp only [submittedState, List.mem_append, List.mem_singleton] at hmem
        rcases hmem with hmem | hmem
        · exact hev c n hmem
        · cases hmem
  | verify responseId p1 p2 p3 h =>
      obtain ⟨-, -, rfl⟩ := verifyResponse_ok h
      refine ⟨?_, ?_, ?_⟩
      · simpa [verifiedState] using hids
      · intro c
        simpa [verifiedState] using hstats c
      · intro c n hmem
        simp only [verifiedState, List.mem_append, List.mem_singleton] at hmem
        rcases hmem with hmem | hmem
        · exact hev c n hmem
        · cases hmem
  | update categoryId h =>
      obtain ⟨hne, -⟩ := updateCategoryStats_ok h
      exact absurd (congrArg SurveyStats.totalResponses (hstats categoryId)) hne

theorem reachable_inv {s : ContractState} (h : Reachable s) : LedgerInv s := by
  induction h with
  | init => exact inv_initial
  | step _ hstep ih => exact inv_step ih hstep

/-! ### Concrete executions used as witnesses and failing inputs -/

/-- FHEVM environment in which every input proof and every decryption signature
verifies. -/
def demoEnv : FheEnv :=
  { validInput := fun _ _ => true, checkSig := fun _ _ => true }

/-- FHEVM environment in which no input proof verifies. -/
def badEnv : FheEnv :=
  { validInput := fun _ _ => false, checkSig := fun _ _ => true }

/-- State after one accepted submission (category 3) from a fresh deployment. -/
def stOne : ContractState :=
  match submitResponse demoEnv initialState 3 10 1 20 1 30 1 100 with
  | Except.ok s => s
  | Except.error _ => initialState

/-- stOne after a successful verifyResponse of response 0. -/
def stOneVerified : ContractState :=
  match verifyResponse demoEnv stOne 0 7 8 9 with
  | Except.ok s => s
  | Except.error _ => stOne

/-- stOne after a second accepted submission with the same category 3. -/
def stTwo : ContractState :=
  match submitResponse demoEnv stOne 3 11 1 21 1 31 1 101 with
  | Except.ok s => s
  | Except.error _ => stOne

theorem stOne_ok : submitResponse demoEnv initialState 3 10 1 20 1 30 1 100 =
    Except.ok stOne := rfl

theorem stOneVerified_ok : verifyResponse demoEnv stOne 0 7 8 9 =
    Except.ok stOneVerified := rfl

theorem stTwo_ok : submitResponse demoEnv stOne 3 11 1 21 1 31 1 101 =
    Except.ok stTwo := rfl

/-! ### The aggregation loop computes count and homomorphic sums of the
filtered record list -/

theorem statsAccStep_foldl (s : ContractState) (c : Nat) :
    ∀ (l : List Nat) (a1 a2 a3 : FheVal) (k : Nat), k < 4294967296 →
      l.foldl (statsAccStep s c) (a1, a2, a3, k) =
        (((l.map s.responses).filter (respMatches c)).foldl
            (fun a r => FheVal.add a r.encryptedAge) a1,
          ((l.map s.responses).filter (respMatches c)).foldl
            (fun a r => FheVal.add a r.encryptedIncome) a2,
          ((l.map s.responses).filter (respMatches c)).foldl
            (fun a r => FheVal.add a r.encryptedSatisfaction) a3,
          (k + ((l.map s.responses).filter (respMatches c)).length) % 4294967296) := by
  intro l
  induction l with
  | nil =>
      intro a1 a2 a3 k hk
      simp [Nat.mod_eq_of_lt hk]
  | cons i l ih =>
      intro a1 a2 a3 k hk
      by_cases hc : respMatches c (s.responses i)
      · have hk1 : (k + 1) % 4294967296 < 4294967296 := Nat.mod_lt _ (by norm_num)
        simp only [List.foldl_cons, List.map_cons, List.filter_cons, hc, if_pos,
          statsAccStep]
        rw [ih _ _ _ _ hk1]
        simp only [List.foldl_cons, List.length_cons, Prod.mk.injEq]
        refine ⟨trivial, trivial, trivial, ?_⟩
        omega
      · simp only [List.foldl_cons, List.map_cons, List.filter_cons, hc,
          statsAccStep, if_neg, Bool.false_eq_true, ite_false]
        exact ih _ _ _ _ hk

/-! ### Client-side decryption flow (App.tsx) -/

/-- Modelled from the spec: the record shape the frontend reads from the chain.
The contract ABI the frontend binds (getBusinessData / verifyDecryption, which
stores a decrypted value on-chain) is not under src/, so the two fields the
decryption flow uses are modelled after section 3 of the spec: a verified flag
and the plaintext stored once verification succeeds. -/
structure BusinessData where
  isVerified : Bool
  decryptedValue : Nat
deriving DecidableEq

/-- Outcome of one run of the client decryptData flow, App.tsx lines 235-309.
alreadyVerified is the short-circuit branch (lines 248-258) that surfaces a
success toast and the stored value; raceAlreadyVerified is the catch branch
(lines 286-297) that turns an already-verified revert into a success toast. -/
inductive DecryptOutcome where
  | noWallet
  | alreadyVerified (value : Nat)
  | decryptedNow (value : Nat)
  | raceAlreadyVerified
  | failed (msg : String)
deriving DecidableEq

/-- decryptData, App.tsx lines 235-309, as a function of the wallet connection
flag, the on-chain records, the requested id, and the outcome of the oracle
round trip (verifyDecryption). Returns the outcome, whether the oracle was
contacted, and the resulting on-chain records; the ledger write performed by a
successful on-chain verifyDecryption call is modelled from the spec
(markVerified stores the plaintext and sets the flag). -/
def decryptData (connected : Bool) (ledger : Nat → BusinessData) (id : Nat)
    (oracle : Except String Nat) :
    DecryptOutcome × Bool × (Nat → BusinessData) :=
  if !connected then (DecryptOutcome.noWallet, false, ledger)
  else if (ledger id).isVerified then
    (DecryptOutcome.alreadyVerified (ledger id).decryptedValue, false, ledger)
  else
    match oracle with
    | Except.ok v =>
        (DecryptOutcome.decryptedNow v, true,
          fun j => if j = id then { isVerified := true, decryptedValue := v }
            else ledger j)
    | Except.error msg =>
        if msg = "Data already verified" then
          (DecryptOutcome.raceAlreadyVerified, true, ledger)
        else (DecryptOutcome.failed msg, true, ledger)

/-! ### Claims -/

/-- C1: for a response whose record is already verified, the client verification
flow (decryptData, which together with the on-chain verifyDecryption call is the
implementation of requestVerification) returns the already-stored plaintext as a
success outcome, without contacting the oracle and without changing any ledger
state; the already-verified condition is never surfaced to the caller as an
error. -/
theorem claimC1_verified_short_circuit (ledger : Nat → BusinessData) (id : Nat)
    (oracle : Except String Nat) (h : (ledger id).isVerified = true) :
    decryptData true ledger id oracle =
      (DecryptOutcome.alreadyVerified (ledger id).decryptedValue, false, ledger) := by
  simp [decryptData, h]

/-- Ledger in which every record is already verified with stored plaintext 42. -/
def c1Ledger : Nat → BusinessData :=
  fun _ => { isVerified := true, decryptedValue := 42 }

theorem claimC1_witness :
    decryptData true c1Ledger 0 (Except.error "oracle unavailable") =
      (DecryptOutcome.alreadyVerified (c1Ledger 0).decryptedValue, false, c1Ledger) :=
  claimC1_verified_short_circuit c1Ledger 0 (Except.error "oracle unavailable") rfl

/-- C2 (code bug): a successful verifyResponse only flips the isVerified flag;
no plaintext values are stored in the response record — the EncryptedResponse
struct has no plaintext field — so after verifying response 0 the record is
verified while its stored plaintext list is empty, contradicting the claimed
invariant that plaintexts are non-empty exactly when verified is true. -/
theorem claimC2_no_plaintext_stored :
    (stOneVerified.responses 0).isVerified = true ∧
      stOneVerified.responses 0 = { stOne.responses 0 with isVerified := true } ∧
      storedPlaintexts (stOneVerified.responses 0) = [] :=
  ⟨rfl, rfl, rfl⟩

/-- C3 (code bug): after a response tagged with category 3 was submitted and
even verified, updateCategoryStats(3) still reverts with the NoResponses revert
string, because its guard reads categoryStats[3].totalResponses, a cache that no
submission or verification ever writes. -/
theorem claimC3_update_fails_despite_response :
    (stOneVerified.responses 0).publicCategory = 3 ∧
      (stOneVerified.responses 0).isVerified = true ∧
      stOneVerified.responseIds = [0] ∧
      updateCategoryStats stOneVerified 3 =
        Except.error "Category has no responses" :=
  ⟨rfl, rfl, rfl, rfl⟩

/-- C5 (code bug): two accepted submissions with the same category 3 push the
category onto categoryIds twice, because the membership test at line 70 reads
categoryStats[category].totalResponses, which no submission ever makes nonzero;
the category index is therefore not duplicate-free. -/
theorem claimC5_category_index_duplicates :
    getAllCategoryIds stTwo = [3, 3] ∧ ¬ (getAllCategoryIds stTwo).Nodup :=
  ⟨rfl, by decide⟩

/-- C4: in every reachable state the stats cache holds zero totalResponses for
every category, consequently updateCategoryStats can never succeed from a
reachable state, and the StatsUpdated event has never been emitted. -/
theorem claimC4_stats_never_updated (s : ContractState) (h : Reachable s) :
    (∀ c, (s.categoryStats c).totalResponses = 0) ∧
      (∀ c s', updateCategoryStats s c ≠ Except.ok s') ∧
      (∀ c n, ContractEvent.statsUpdated c n ∉ s.events) := by
  obtain ⟨-, hstats, hev⟩ := reachable_inv h
  refine ⟨?_, ?_, hev⟩
  · intro c
    rw [hstats c]
    rfl
  · intro c s' hok
    exact (updateCategoryStats_ok hok).1
      (congrArg SurveyStats.totalResponses (hstats c))

theorem claimC4_witness :
    (∀ c, (initialState.categoryStats c).totalResponses = 0) ∧
      (∀ c s', updateCategoryStats initialState c ≠ Except.ok s') ∧
      (∀ c n, ContractEvent.statsUpdated c n ∉ initialState.events) :=
  claimC4_stats_never_updated initialState Reachable.init

/-- C7: if any of the three field proofs fails validation, submitResponse
reverts before persisting anything: the call returns an error and, by EVM revert
semantics (runSubmit), the response store, the id list and the category index of
the observable state are exactly as before — all-or-nothing. In the embedding
the three proof checks are sequenced before every storage write, matching lines
47-49 of the source. -/
theorem claimC7_invalid_proof_rejects_all (env : FheEnv) (s : ContractState)
    (publicCategory e1 p1 e2 p2 e3 p3 now : Nat)
    (h : env.validInput e1 p1 = false ∨ env.validInput e2 p2 = false ∨
      env.validInput e3 p3 = false) :
    (∃ msg, submitResponse env s publicCategory e1 p1 e2 p2 e3 p3 now =
      Except.error msg) ∧
      runSubmit env s publicCategory e1 p1 e2 p2 e3 p3 now = s := by
  have herr : ∃ msg, submitResponse env s publicCategory e1 p1 e2 p2 e3 p3 now =
      Except.error msg := by
    unfold submitResponse
    rcases h with h | h | h
    · simp [h]
    · cases hv1 : env.validInput e1 p1 <;> simp [h, hv1]
    · cases hv1 : env.validInput e1 p1 <;> cases hv2 : env.validInput e2 p2 <;>
        simp [h, hv1, hv2]
  obtain ⟨msg, hmsg⟩ := herr
  refine ⟨⟨msg, hmsg⟩, ?_⟩
  unfold runSubmit
  rw [hmsg]

theorem claimC7_witness :
    (∃ msg, submitResponse badEnv initialState 3 10 1 20 1 30 1 100 =
      Except.error msg) ∧
      runSubmit badEnv initialState 3 10 1 20 1 30 1 100 = initialState :=
  claimC7_invalid_proof_rejects_all badEnv initialState 3 10 1 20 1 30 1 100
    (Or.inl rfl)

/-- C8: a successful submission in a reachable state allocates as the new id the
current number of stored responses, so the id list stays equal to
range (0,1,2,...): ids are unique, sequential and monotonically increasing, and
getAllResponseIds lists them in insertion order; immediately afterwards the new
record is unverified and carries no stored plaintexts. -/
theorem claimC8_sequential_ids_fresh_record (env : FheEnv) (s s' : ContractState)
    (publicCategory e1 p1 e2 p2 e3 p3 now : Nat) (hs : Reachable s)
    (h : submitResponse env s publicCategory e1 p1 e2 p2 e3 p3 now = Except.ok s') :
    getAllResponseIds s = List.range s.responseIds.length ∧
      getAllResponseIds s' = getAllResponseIds s ++ [s.responseIds.length] ∧
      getAllResponseIds s' = List.range (s.responseIds.length + 1) ∧
      (getAllResponseIds s').Nodup ∧
      (s'.responses s.responseIds.length).isVerified = false ∧
      storedPlaintexts (s'.responses s.responseIds.length) = [] := by
  obtain ⟨hids, -, -⟩ := reachable_inv hs
  obtain ⟨-, -, -, rfl⟩ := submitResponse_ok h
  have happ : getAllResponseIds
      (submittedState s publicCategory e1 p1 e2 p2 e3 p3 now) =
      getAllResponseIds s ++ [s.responseIds.length] := rfl
  have hrange : getAllResponseIds
      (submittedState s publicCategory e1 p1 e2 p2 e3 p3 now) =
      List.range (s.responseIds.length + 1) := by
    rw [happ, List.range_succ]
    exact congrArg (fun l => l ++ [s.responseIds.length]) hids
  refine ⟨hids, happ, hrange, ?_, ?_, rfl⟩
  · rw [hrange]
    exact List.nodup_range _
  · simp [submittedState, mapUpd]

theorem claimC8_witness :
    getAllResponseIds initialState = List.range initialState.responseIds.length ∧
      getAllResponseIds stOne =
        getAllResponseIds initialState ++ [initialState.responseIds.length] ∧
      getAllResponseIds stOne = List.range (initialState.responseIds.length + 1) ∧
      (getAllResponseIds stOne).Nodup ∧
      (stOne.responses initialState.responseIds.length).isVerified = false ∧
      storedPlaintexts (stOne.responses initialState.responseIds.length) = [] :=
  claimC8_sequential_ids_fresh_record demoEnv initialState stOne 3 10 1 20 1 30 1
    100 Reachable.init stOne_ok

/-- C9: one successful call of any of the three mutating functions preserves,
for every already-stored response, the verified flag once it is true (so
Submitted to Verified is the only transition and Verified is terminal) and
leaves the response's three ciphertext handles, its category tag and its
timestamp unchanged. This is proved for an arbitrary source state, so it holds
in particular along every reachable sequence of operations. -/
theorem claimC9_verified_terminal_fields_immutable (s s' : ContractState)
    (hstep : Step s s') (id : Nat) (hid : id < s.responseIds.length) :
    ((s.responses id).isVerified = true → (s'.responses id).isVerified = true) ∧
      (s'.responses id).encryptedAge = (s.responses id).encryptedAge ∧
      (s'.responses id).encryptedIncome = (s.responses id).encryptedIncome ∧
      (s'.responses id).encryptedSatisfaction =
        (s.responses id).encryptedSatisfaction ∧
      (s'.responses id).publicCategory = (s.responses id).publicCategory ∧
      (s'.responses id).timestamp = (s.responses id).timestamp := by
  cases hstep with
  | submit publicCategory e1 p1 e2 p2 e3 p3 now h =>
      obtain ⟨-, -, -, rfl⟩ := submitResponse_ok h
      have hne : id ≠ s.responseIds.length := Nat.ne_of_lt hid
      simp [submittedState, mapUpd, hne]
  | verify responseId p1 p2 p3 h =>
      obtain ⟨-, -, rfl⟩ := verifyResponse_ok h
      by_cases hcase : id = responseId
      · subst hcase
        simp [verifiedState, mapUpd]
      · simp [verifiedState, mapUpd, hcase]
  | update categoryId h =>
      obtain ⟨-, rfl⟩ := updateCategoryStats_ok h
      simp [statsState]

theorem claimC9_witness :
    ((stOne.responses 0).isVerified = true →
      (stOneVerified.responses 0).isVerified = true) ∧
      (stOneVerified.responses 0).encryptedAge = (stOne.responses 0).encryptedAge ∧
      (stOneVerified.responses 0).encryptedIncome =
        (stOne.responses 0).encryptedIncome ∧
      (stOneVerified.responses 0).encryptedSatisfaction =
        (stOne.responses 0).encryptedSatisfaction ∧
      (stOneVerified.responses 0).publicCategory =
        (stOne.responses 0).publicCategory ∧
      (stOneVerified.responses 0).timestamp = (stOne.responses 0).timestamp :=
  claimC9_verified_terminal_fields_immutable stOne stOneVerified
    (Step.verify 0 7 8 9 stOneVerified_ok) 0 (by decide)

/-- C10: getCategoryStats has no failure path at all (it is a total function of
the state, with no require in the source), and in every reachable state it
returns the zero default — totalResponses 0 and wrap(0) accumulators — for
every category id, in particular for a category that was never submitted,
instead of a NotFound error. -/
theorem claimC10_getCategoryStats_total_default (s : ContractState)
    (h : Reachable s) (categoryId : Nat) :
    getCategoryStats s categoryId = emptyStats := by
  obtain ⟨-, hstats, -⟩ := reachable_inv h
  exact hstats categoryId

theorem claimC10_witness : getCategoryStats initialState 99 = emptyStats :=
  claimC10_getCategoryStats_total_default initialState Reachable.init 99

/-- C6: whenever updateCategoryStats succeeds for a category — which requires a
state whose stats-cache guard passes; no reachable state satisfies it, see the
C4 theorem — the CategoryStats it stores has totalResponses equal to the number
of currently verified responses tagged with that category, and each sums field
is the homomorphic (FHE.add) fold over exactly the corresponding ciphertext
handles of that filtered set, in ledger order. The first hypothesis, that the
id list is 0..n-1, is the invariant every reachable ledger satisfies
(reachable_inv) and lets the loop's direct indexing coincide with the ledger's
records; the second keeps the uint32 counter below 2^32. -/
theorem claimC6_stats_correct_when_ok (s s' : ContractState) (categoryId : Nat)
    (hids : s.responseIds = List.range s.responseIds.length)
    (hlen : s.responseIds.length < 4294967296)
    (h : updateCategoryStats s categoryId = Except.ok s') :
    (s'.categoryStats categoryId).totalResponses =
        (matchingVerified s categoryId).length ∧
      (s'.categoryStats categoryId).sumAge =
        homSum (fun r => r.encryptedAge) (matchingVerified s categoryId) ∧
      (s'.categoryStats categoryId).sumIncome =
        homSum (fun r => r.encryptedIncome) (matchingVerified s categoryId) ∧
      (s'.categoryStats categoryId).sumSatisfaction =
        homSum (fun r => r.encryptedSatisfaction) (matchingVerified s categoryId) := by
  obtain ⟨-, rfl⟩ := updateCategoryStats_ok h
  have hmv : matchingVerified s categoryId =
      ((List.range s.responseIds.length).map s.responses).filter
        (respMatches categoryId) := by
    unfold matchingVerified ledgerRecords
    rw [← hids]
  have hflen : (((List.range s.responseIds.length).map s.responses).filter
      (respMatches categoryId)).length < 4294967296 := by
    calc (((List.range s.responseIds.length).map s.responses).filter
          (respMatches categoryId)).length
        ≤ ((List.range s.responseIds.length).map s.responses).length :=
          List.length_filter_le _ _
      _ = s.responseIds.length := by simp
      _ < 4294967296 := hlen
  have hacc : statsAcc s categoryId =
      ((((List.range s.responseIds.length).map s.responses).filter
          (respMatches categoryId)).foldl
          (fun a r => FheVal.add a r.encryptedAge) (FheVal.wrap 0),
        (((List.range s.responseIds.length).map s.responses).filter
          (respMatches categoryId)).foldl
          (fun a r => FheVal.add a r.encryptedIncome) (FheVal.wrap 0),
        (((List.range s.responseIds.length).map s.responses).filter
          (respMatches categoryId)).foldl
          (fun a r => FheVal.add a r.encryptedSatisfaction) (FheVal.wrap 0),
        (((List.range s.responseIds.length).map s.responses).filter
          (respMatches categoryId)).length) := by
    unfold statsAcc
    rw [statsAccStep_foldl s categoryId (List.range s.responseIds.length)
      (FheVal.wrap 0) (FheVal.wrap 0) (FheVal.wrap 0) 0 (by norm_num)]
    rw [Nat.zero_add, Nat.mod_eq_of_lt hflen]
  have hcs : (statsState s categoryId).categoryStats categoryId =
      { totalResponses := (statsAcc s categoryId).2.2.2,
        sumAge := (statsAcc s categoryId).1,
        sumIncome := (statsAcc s categoryId).2.1,
        sumSatisfaction := (statsAcc s categoryId).2.2.1 } := by
    simp [statsState, mapUpd]
  rw [hcs, hacc, hmv]
  exact ⟨rfl, rfl, rfl, rfl⟩

/-- Ledger state with two stored responses (ids 0 and 1, both verified, tagged
with categories 3 and 4 respectively) and a stats cache artificially seeded so
that the updateCategoryStats guard for category 3 passes. No reachable state
seeds the cache (see the C4 theorem), so this state exercises the loop the way
the specification intends. -/
def c6State : ContractState :=
  { responses := mapUpd (mapUpd (fun _ => emptyResponse) 0
      { encryptedAge := FheVal.ext 40 1, encryptedIncome := FheVal.ext 41 1,
        encryptedSatisfaction := FheVal.ext 42 1, publicCategory := 3,
        timestamp := 100, isVerified := true }) 1
      { encryptedAge := FheVal.ext 50 1, encryptedIncome := FheVal.ext 51 1,
        encryptedSatisfaction := FheVal.ext 52 1, publicCategory := 4,
        timestamp := 101, isVerified := true },
    categoryStats := mapUpd (fun _ => emptyStats) 3
      { totalResponses := 1, sumAge := FheVal.wrap 0, sumIncome := FheVal.wrap 0,
        sumSatisfaction := FheVal.wrap 0 },
    responseIds := [0, 1], categoryIds := [3, 4], events := [] }

/-- c6State after updateCategoryStats(3) succeeds. -/
def c6StateUpdated : ContractState :=
  match updateCategoryStats c6State 3 with
  | Except.ok s => s
  | Except.error _ => c6State

theorem c6State_ok : updateCategoryStats c6State 3 = Except.ok c6StateUpdated := rfl

theorem claimC6_witness :
    (c6StateUpdated.categoryStats 3).totalResponses =
        (matchingVerified c6State 3).length ∧
      (c6StateUpdated.categoryStats 3).sumAge =
        homSum (fun r => r.encryptedAge) (matchingVerified c6State 3) ∧
      (c6StateUpdated.categoryStats 3).sumIncome =
        homSum (fun r => r.encryptedIncome) (matchingVerified c6State 3) ∧
      (c6StateUpdated.categoryStats 3).sumSatisfaction =
        homSum (fun r => r.encryptedSatisfaction) (matchingVerified c6State 3) :=
  claimC6_stats_correct_when_ok c6State c6StateUpdated 3 (by decide) (by decide)
    c6State_ok
